import Mathlib

/-!
Shallow embedding of the journey-state simulation core of the
`rust-trail` repository (files `src/game_logic/player.rs` and
`src/game_logic/inventory.rs`), together with theorems settling the
frozen claims about it.

Modelling conventions:
* Rust machine integers (`u8`, `u16`, `u32`) are embedded as `Nat`.
  Arithmetic that can overflow or underflow in the source is modelled
  with the checked semantics of a build with overflow checks enabled
  (the default dev profile): an overflowing operation is a panic and the
  embedded function returns `none`.  Where a bound in scope makes
  overflow impossible (e.g. `day + days_to_advance ≤ 32` once
  `days_in_month - day` has not underflowed) plain `Nat` arithmetic is
  used.
* `f32` fields (`weight_per_unit`, `miles_traveled`, capacities) are
  embedded as exact rationals; every catalog weight except `0.1` and
  `0.5` is exactly representable in `f32`, and no claim proved here
  depends on `f32` rounding.
* Rust's `HashMap<ItemType, Item>` is embedded extensionally as a
  function `ItemType → Option Item` (each kind appears at most once, so
  the map is exactly such a function).
* `&mut self` methods become functions returning the updated value;
  methods that both mutate and return a `bool` return a pair.
-/

/-- Health ladder from `player.rs` (`enum HealthStatus`). -/
inductive HealthStatus where
  | Good
  | Fair
  | Poor
  | VeryPoor
  | Deceased
deriving DecidableEq, Repr

/-- Diseases from `player.rs` (`enum Disease`). -/
inductive Disease where
  | Cholera
  | Dysentery
  | Measles
  | Typhoid
  | Fever
  | BrokenLeg
  | BrokenArm
  | Exhaustion
  | SnakeBite
deriving DecidableEq, Repr

/-- A party member, from `player.rs` (`struct PartyMember`).
`age` embeds a `u8`. -/
structure PartyMember where
  name : String
  health : HealthStatus
  diseases : List Disease
  is_leader : Bool
  age : Nat
deriving DecidableEq, Repr

namespace PartyMember

/-- `PartyMember::new` from `player.rs`. -/
def new (name : String) (age : Nat) (is_leader : Bool) : PartyMember :=
  { name := name
    health := HealthStatus.Good
    diseases := []
    is_leader := is_leader
    age := age }

/-- `PartyMember::is_alive` from `player.rs`. -/
def is_alive (m : PartyMember) : Bool :=
  decide (m.health ≠ HealthStatus.Deceased)

/-- `PartyMember::degrade_health` from `player.rs`. -/
def degrade_health (m : PartyMember) : PartyMember :=
  { m with health :=
      match m.health with
      | HealthStatus.Good => HealthStatus.Fair
      | HealthStatus.Fair => HealthStatus.Poor
      | HealthStatus.Poor => HealthStatus.VeryPoor
      | HealthStatus.VeryPoor => HealthStatus.Deceased
      | HealthStatus.Deceased => HealthStatus.Deceased }

/-- `PartyMember::improve_health` from `player.rs`. -/
def improve_health (m : PartyMember) : PartyMember :=
  { m with health :=
      match m.health with
      | HealthStatus.Good => HealthStatus.Good
      | HealthStatus.Fair => HealthStatus.Good
      | HealthStatus.Poor => HealthStatus.Fair
      | HealthStatus.VeryPoor => HealthStatus.Poor
      | HealthStatus.Deceased => HealthStatus.Deceased }

/-- `PartyMember::contract_disease` from `player.rs`: push the disease
if absent, then degrade health once. -/
def contract_disease (m : PartyMember) (d : Disease) : PartyMember :=
  if d ∈ m.diseases then m
  else degrade_health { m with diseases := m.diseases ++ [d] }

/-- `PartyMember::recover_from_disease` from `player.rs`
(`retain(|&x| x != disease)`). -/
def recover_from_disease (m : PartyMember) (d : Disease) : PartyMember :=
  { m with diseases := m.diseases.filter (fun x => decide (x ≠ d)) }

end PartyMember

/-- Item kinds from `inventory.rs` (`enum ItemType`). -/
inductive ItemType where
  | Food
  | Clothing
  | Ammunition
  | OxenPair
  | SpareWheel
  | SpareAxle
  | SpareTongue
  | MedicalSupply
deriving DecidableEq, Repr

/-- A stocked item, from `inventory.rs` (`struct Item`).
`quantity` and `cost_per_unit` embed `u32`; `weight_per_unit` embeds the
`f32` field as an exact rational. -/
structure Item where
  item_type : ItemType
  quantity : Nat
  weight_per_unit : ℚ
  cost_per_unit : Nat
deriving DecidableEq, Repr

namespace Item

/-- `Item::new` from `inventory.rs`. -/
def new (item_type : ItemType) (quantity : Nat) (weight_per_unit : ℚ)
    (cost_per_unit : Nat) : Item :=
  { item_type := item_type
    quantity := quantity
    weight_per_unit := weight_per_unit
    cost_per_unit := cost_per_unit }

/-- `Item::total_weight` from `inventory.rs`. -/
def total_weight (it : Item) : ℚ :=
  (it.quantity : ℚ) * it.weight_per_unit

/-- `Item::total_cost` from `inventory.rs`. -/
def total_cost (it : Item) : Nat :=
  it.quantity * it.cost_per_unit

end Item

/-- The inventory, from `inventory.rs` (`struct Inventory`); the
`HashMap<ItemType, Item>` is embedded extensionally. -/
structure Inventory where
  items : ItemType → Option Item
  max_capacity : ℚ

/-- The eight item kinds; used to embed iteration over the map's values. -/
def allItemTypes : List ItemType :=
  [ItemType.Food, ItemType.Clothing, ItemType.Ammunition,
   ItemType.OxenPair, ItemType.SpareWheel, ItemType.SpareAxle,
   ItemType.SpareTongue, ItemType.MedicalSupply]

namespace Inventory

/-- `Inventory::new` from `inventory.rs`. -/
def new (max_capacity : ℚ) : Inventory :=
  { items := fun _ => none, max_capacity := max_capacity }

/-- The `match item_type` catalog inside `Inventory::add_item`:
default weight and cost per unit for a newly introduced kind. -/
def defaultItem (t : ItemType) (quantity : Nat) : Item :=
  match t with
  | ItemType.Food => Item.new t quantity 1 2
  | ItemType.Clothing => Item.new t quantity 2 10
  | ItemType.Ammunition => Item.new t quantity (1/10) 2
  | ItemType.OxenPair => Item.new t quantity 500 40
  | ItemType.SpareWheel => Item.new t quantity 15 10
  | ItemType.SpareAxle => Item.new t quantity 10 8
  | ItemType.SpareTongue => Item.new t quantity 8 6
  | ItemType.MedicalSupply => Item.new t quantity (1/2) 15

/-- `Inventory::add_item` from `inventory.rs`.  When the kind is already
stocked the source runs `item.quantity += quantity` on a `u32`, which
panics on overflow in a checked build; that panic is the `none` case. -/
def add_item (inv : Inventory) (t : ItemType) (q : Nat) : Option Inventory :=
  match inv.items t with
  | some it =>
      if it.quantity + q < 2 ^ 32 then
        some { inv with items := fun u =>
          if u = t then some { it with quantity := it.quantity + q }
          else inv.items u }
      else none
  | none =>
      some { inv with items := fun u =>
        if u = t then some (defaultItem t q) else inv.items u }

/-- `Inventory::remove_item` from `inventory.rs`: returns the `bool`
result together with the updated inventory.  The subtraction is guarded
by `item.quantity >= quantity`, so it never underflows. -/
def remove_item (inv : Inventory) (t : ItemType) (q : Nat) : Bool × Inventory :=
  match inv.items t with
  | some it =>
      if q ≤ it.quantity then
        if it.quantity - q = 0 then
          (true, { inv with items := fun u => if u = t then none else inv.items u })
        else
          (true, { inv with items := fun u =>
            (if u = t then some { it with quantity := it.quantity - q }
             else inv.items u) })
      else (false, inv)
  | none => (false, inv)

/-- `Inventory::get_quantity` from `inventory.rs`. -/
def get_quantity (inv : Inventory) (t : ItemType) : Nat :=
  match inv.items t with
  | some it => it.quantity
  | none => 0

/-- `Inventory::total_weight` from `inventory.rs`: sum of
`Item::total_weight` over the stocked items. -/
def total_weight (inv : Inventory) : ℚ :=
  (allItemTypes.map (fun t =>
    match inv.items t with
    | some it => it.total_weight
    | none => 0)).sum

/-- `Inventory::can_add` from `inventory.rs`. -/
def can_add (inv : Inventory) (t : ItemType) (q : Nat) : Bool :=
  let weight_per_unit :=
    match inv.items t with
    | some it => it.weight_per_unit
    | none => (defaultItem t 0).weight_per_unit
  decide (inv.total_weight + weight_per_unit * (q : ℚ) ≤ inv.max_capacity)

/-- `Inventory::use_food` from `inventory.rs`; the `f32` argument is
embedded as a rational, `pounds.ceil() as u32` as a saturating-at-zero
ceiling. -/
def use_food (inv : Inventory) (pounds : ℚ) : Bool × Inventory :=
  inv.remove_item ItemType.Food (Int.toNat ⌈pounds⌉)

/-- `Inventory::use_ammunition` from `inventory.rs`. -/
def use_ammunition (inv : Inventory) (q : Nat) : Bool × Inventory :=
  inv.remove_item ItemType.Ammunition q

/-- `Inventory::use_medical_supply` from `inventory.rs`. -/
def use_medical_supply (inv : Inventory) : Bool × Inventory :=
  inv.remove_item ItemType.MedicalSupply 1

/-- `Inventory::capacity_info` from `inventory.rs`; rational division by
zero is total in the embedding, as `f32` division is in the source. -/
def capacity_info (inv : Inventory) : ℚ × ℚ × ℚ :=
  (inv.total_weight, inv.max_capacity,
   inv.total_weight / inv.max_capacity * 100)

end Inventory

/-- Travel pace from `player.rs` (`enum Pace`). -/
inductive Pace where
  | Steady
  | Strenuous
  | Grueling
  | Resting
deriving DecidableEq, Repr

/-- Ration level from `player.rs` (`enum Rations`). -/
inductive Rations where
  | Filling
  | Meager
  | BareBones
deriving DecidableEq, Repr

/-- The journey state, from `player.rs` (`struct PlayerState`).
`money` and `day` embed `u32`, `month` embeds `u8`, `year` embeds `u16`;
the `f32` field `miles_traveled` is embedded as a rational. -/
structure PlayerState where
  party : List PartyMember
  money : Nat
  pace : Pace
  rations : Rations
  miles_traveled : ℚ
  location : String
  day : Nat
  month : Nat
  year : Nat
deriving DecidableEq, Repr

namespace PlayerState

/-- `PlayerState::new` from `player.rs`. -/
def new : PlayerState :=
  { party := []
    money := 1600
    pace := Pace.Steady
    rations := Rations.Filling
    miles_traveled := 0
    location := "Independence, Missouri"
    day := 1
    month := 3
    year := 1848 }

/-- `PlayerState::setup_party` from `player.rs`: push the leader, then
one member per companion name in order. -/
def setup_party (s : PlayerState) (leader_name : String)
    (party_names : List String) : PlayerState :=
  { s with party :=
      s.party ++ [PartyMember.new leader_name 30 true] ++
        party_names.map (fun n => PartyMember.new n 25 false) }

/-- `PlayerState::living_party_members` from `player.rs`. -/
def living_party_members (s : PlayerState) : Nat :=
  (s.party.filter (fun m => m.is_alive)).length

/-- The `match self.month` table inside `PlayerState::advance_date`:
days in the current month, with the divisible-by-4 February rule and a
default of 30 for out-of-range months. -/
def daysInMonth (month year : Nat) : Nat :=
  match month with
  | 1 => 31
  | 2 => if year % 4 = 0 then 29 else 28
  | 3 => 31
  | 4 => 30
  | 5 => 31
  | 6 => 30
  | 7 => 31
  | 8 => 31
  | 9 => 30
  | 10 => 31
  | 11 => 30
  | 12 => 31
  | _ => 30

/-- The `while remaining_days > 0` loop of `PlayerState::advance_date`,
with checked arithmetic.  The panic points of the source are:
`days_in_month - self.day` (u32 underflow when `day > days_in_month`),
`self.month += 1` (u8 overflow when `month = 255`) and
`self.year += 1` (u16 overflow when `year = 65535`); each is `none`
here.  `self.day += days_to_advance` cannot overflow once the
subtraction has not underflowed (`day ≤ days_in_month ≤ 31` and
`days_to_advance ≤ days_in_month - day + 1`, so the new day is at most
32), and `remaining_days -= days_to_advance` cannot underflow because
`days_to_advance` is a `min` with `remaining_days`. -/
def advanceDateLoop : PlayerState → Nat → Option PlayerState
  | s, 0 => s
  | s, r + 1 =>
    if daysInMonth s.month s.year < s.day then
      none
    else if daysInMonth s.month s.year <
        s.day + min (r + 1) (daysInMonth s.month s.year - s.day + 1) then
      if s.month + 1 < 2 ^ 8 then
        if 12 < s.month + 1 then
          if s.year + 1 < 2 ^ 16 then
            advanceDateLoop { s with day := 1, month := 1, year := s.year + 1 }
              (r + 1 - min (r + 1) (daysInMonth s.month s.year - s.day + 1))
          else none
        else
          advanceDateLoop { s with day := 1, month := s.month + 1 }
            (r + 1 - min (r + 1) (daysInMonth s.month s.year - s.day + 1))
      else none
    else
      advanceDateLoop
        { s with day := s.day + min (r + 1) (daysInMonth s.month s.year - s.day + 1) }
        (r + 1 - min (r + 1) (daysInMonth s.month s.year - s.day + 1))
termination_by _ r => r
decreasing_by all_goals omega

/-- `PlayerState::advance_date` from `player.rs`: run the loop with
`remaining_days = days`. -/
def advance_date (s : PlayerState) (days : Nat) : Option PlayerState :=
  advanceDateLoop s days

/-- The iterative day-by-day reference computation the spec compares a
single `advance_date` call against: apply `advance_date · 1` once per
day, propagating a panic. -/
def dayByDay (s : PlayerState) : Nat → Option PlayerState
  | 0 => some s
  | n + 1 => (advance_date s 1).bind (fun t => dayByDay t n)

/-- Fuel-indexed version of `advanceDateLoop`, used to state termination:
the outer `none` means the fuel ran out before the loop finished. -/
def advanceDateFuel : Nat → PlayerState → Nat → Option (Option PlayerState)
  | 0, _, _ => none
  | _ + 1, s, 0 => some (some s)
  | fuel + 1, s, r + 1 =>
    if daysInMonth s.month s.year < s.day then
      some none
    else if daysInMonth s.month s.year <
        s.day + min (r + 1) (daysInMonth s.month s.year - s.day + 1) then
      if s.month + 1 < 2 ^ 8 then
        if 12 < s.month + 1 then
          if s.year + 1 < 2 ^ 16 then
            advanceDateFuel fuel { s with day := 1, month := 1, year := s.year + 1 }
              (r + 1 - min (r + 1) (daysInMonth s.month s.year - s.day + 1))
          else some none
        else
          advanceDateFuel fuel { s with day := 1, month := s.month + 1 }
            (r + 1 - min (r + 1) (daysInMonth s.month s.year - s.day + 1))
      else some none
    else
      advanceDateFuel fuel
        { s with day := s.day + min (r + 1) (daysInMonth s.month s.year - s.day + 1) }
        (r + 1 - min (r + 1) (daysInMonth s.month s.year - s.day + 1))

end PlayerState

/-- A date is valid when the month is in 1..12 and the day is in
1..(length of that month under the code's table). -/
def validDate (s : PlayerState) : Prop :=
  1 ≤ s.month ∧ s.month ≤ 12 ∧ 1 ≤ s.day ∧
    s.day ≤ PlayerState.daysInMonth s.month s.year

/-- A concrete inventory holding five units of food, used by witnesses. -/
def sampleFoodInv : Inventory :=
  { items := fun u =>
      if u = ItemType.Food then some (Item.new ItemType.Food 5 1 2) else none
    max_capacity := 100 }

/-- Helper: the fuel-indexed loop agrees with the loop whenever the
fuel exceeds the remaining-days counter; this is exactly the fact that
every loop iteration consumes at least one remaining day.  It also lets
concrete runs of the well-founded loop be computed by reduction. -/
theorem advanceDateFuel_spec :
    ∀ (fuel : Nat) (s : PlayerState) (r : Nat), r < fuel →
      PlayerState.advanceDateFuel fuel s r = some (PlayerState.advanceDateLoop s r) := by
  intro fuel
  induction fuel with
  | zero => intro s r h; omega
  | succ f ih =>
    intro s r h
    match r with
    | 0 =>
        rw [PlayerState.advanceDateLoop]
        rfl
    | r + 1 =>
        rw [PlayerState.advanceDateLoop, PlayerState.advanceDateFuel]
        split_ifs with h1 h2 h3 h4 h5
        · rfl
        · exact ih _ _ (by omega)
        · rfl
        · exact ih _ _ (by omega)
        · rfl
        · exact ih _ _ (by omega)

/-- Helper: compute a concrete run of `advance_date` from a concrete
run of the structurally recursive fuel version. -/
theorem advance_date_eval (s : PlayerState) (days : Nat) (res : Option PlayerState)
    (h : PlayerState.advanceDateFuel (days + 1) s days = some res) :
    PlayerState.advance_date s days = res := by
  have h2 := advanceDateFuel_spec (days + 1) s days (by omega)
  rw [h] at h2
  show PlayerState.advanceDateLoop s days = res
  exact (Option.some.inj h2).symm

/-- Helper: closed form of a single-day `advanceDateLoop` call, read
off from one unfolding of the loop with `remaining_days = 1`. -/
theorem advanceDateLoop_one (s : PlayerState) :
    PlayerState.advanceDateLoop s 1 =
      (if PlayerState.daysInMonth s.month s.year < s.day then none
       else if PlayerState.daysInMonth s.month s.year < s.day + 1 then
         (if s.month + 1 < 2 ^ 8 then
            (if 12 < s.month + 1 then
               (if s.year + 1 < 2 ^ 16 then
                  some { s with day := 1, month := 1, year := s.year + 1 }
                else none)
             else some { s with day := 1, month := s.month + 1 })
          else none)
       else some { s with day := s.day + 1 }) := by
  conv_lhs => rw [show (1 : Nat) = 0 + 1 from rfl]
  rw [PlayerState.advanceDateLoop]
  have hmin : min (0 + 1) (PlayerState.daysInMonth s.month s.year - s.day + 1) = 1 := by
    omega
  rw [hmin]
  norm_num
  split_ifs <;> first | rfl | rw [PlayerState.advanceDateLoop]

/-- Helper: a loop run on `n + 1` remaining days equals one single-day
run followed by a loop run on `n` remaining days; the fast path that
consumes a whole month at once agrees with peeling off one day. -/
theorem advanceDateLoop_step (n : Nat) (s : PlayerState) :
    PlayerState.advanceDateLoop s (n + 1) =
      (PlayerState.advanceDateLoop s 1).bind
        (fun t => PlayerState.advanceDateLoop t n) := by
  rw [advanceDateLoop_one]
  by_cases h1 : PlayerState.daysInMonth s.month s.year < s.day
  · rw [PlayerState.advanceDateLoop]
    simp [h1]
  by_cases h2 : PlayerState.daysInMonth s.month s.year < s.day + 1
  · have hmin : min (n + 1) (PlayerState.daysInMonth s.month s.year - s.day + 1) = 1 := by
      omega
    rw [PlayerState.advanceDateLoop, hmin]
    simp only [h1, h2, if_neg, if_pos, if_true, if_false]
    split_ifs <;> simp
  · rcases n with _ | m
    · have hmin : min (0 + 1) (PlayerState.daysInMonth s.month s.year - s.day + 1) = 1 := by
        omega
      rw [PlayerState.advanceDateLoop, hmin]
      simp only [h1, h2, if_neg, if_pos, if_true, if_false]
      simp
    · rw [PlayerState.advanceDateLoop]
      simp only [if_neg h1, if_neg h2, Option.some_bind]
      rw [PlayerState.advanceDateLoop]
      dsimp only
      split_ifs <;>
        first
          | rfl
          | omega
          | (congr 1 <;>
              first
                | rfl
                | omega
                | (simp only [PlayerState.mk.injEq, and_true, true_and]
                   omega))

/-- Helper: a single `advance_date` call on any state and any number of
days equals the day-by-day iteration of single-day calls. -/
theorem advance_eq_dayByDay :
    ∀ (n : Nat) (s : PlayerState),
      PlayerState.advance_date s n = PlayerState.dayByDay s n := by
  intro n
  induction n with
  | zero =>
      intro s
      rw [PlayerState.dayByDay, PlayerState.advance_date, PlayerState.advanceDateLoop]
  | succ k ih =>
      intro s
      rw [PlayerState.dayByDay, PlayerState.advance_date, advanceDateLoop_step k s]
      show (PlayerState.advanceDateLoop s 1).bind (fun t => PlayerState.advanceDateLoop t k) =
        (PlayerState.advanceDateLoop s 1).bind (fun t => PlayerState.dayByDay t k)
      cases h1 : PlayerState.advanceDateLoop s 1 with
      | none => rfl
      | some t =>
          rw [Option.some_bind, Option.some_bind]
          exact ih t

/-- Helper: every entry of the month-length table lies between 28 and
31 days. -/
theorem daysInMonth_bounds (m y : Nat) :
    28 ≤ PlayerState.daysInMonth m y ∧ PlayerState.daysInMonth m y ≤ 31 := by
  unfold PlayerState.daysInMonth
  split
  all_goals first | omega | (split <;> omega)

/-- Helper: the loop preserves date validity whenever it returns a
state. -/
theorem advanceDateLoop_valid :
    ∀ (r : Nat) (s t : PlayerState), validDate s →
      PlayerState.advanceDateLoop s r = some t → validDate t := by
  intro r
  induction r using Nat.strong_induction_on with
  | _ r ih =>
    match r with
    | 0 =>
        intro s t hs h
        rw [PlayerState.advanceDateLoop] at h
        exact (Option.some.inj h) ▸ hs
    | r + 1 =>
        intro s t hs h
        obtain ⟨hm1, hm2, hd1, hd2⟩ := hs
        rw [PlayerState.advanceDateLoop] at h
        split_ifs at h with h1 h2 h3 h4 h5
        all_goals refine ih _ (by omega) _ t ?_ h
        all_goals
          have hb1 := daysInMonth_bounds 1 (s.year + 1)
          have hb2 := daysInMonth_bounds (s.month + 1) s.year
          refine ⟨?_, ?_, ?_, ?_⟩ <;> dsimp only <;> omega

/-- C4: Deceased is absorbing for degrade, improve, contract and
recover (including iterated improve), and improve moves exactly one
step up the ladder from Fair, Poor or VeryPoor and is a no-op at
Good. -/
theorem C4_deceased_absorbing :
    (∀ (m : PartyMember), m.health = HealthStatus.Deceased →
      m.degrade_health.health = HealthStatus.Deceased ∧
      m.improve_health.health = HealthStatus.Deceased ∧
      (∀ d, (m.contract_disease d).health = HealthStatus.Deceased) ∧
      (∀ d, (m.recover_from_disease d).health = HealthStatus.Deceased) ∧
      (∀ n, (PartyMember.improve_health^[n] m).health = HealthStatus.Deceased)) ∧
    (∀ (m : PartyMember),
      (m.health = HealthStatus.Good → m.improve_health.health = HealthStatus.Good) ∧
      (m.health = HealthStatus.Fair → m.improve_health.health = HealthStatus.Good) ∧
      (m.health = HealthStatus.Poor → m.improve_health.health = HealthStatus.Fair) ∧
      (m.health = HealthStatus.VeryPoor → m.improve_health.health = HealthStatus.Poor)) := by
  constructor
  · intro m h
    refine ⟨?_, ?_, ?_, ?_, ?_⟩
    · simp [PartyMember.degrade_health, h]
    · simp [PartyMember.improve_health, h]
    · intro d
      by_cases hd : d ∈ m.diseases
      · simp [PartyMember.contract_disease, hd, h]
      · simp [PartyMember.contract_disease, hd, PartyMember.degrade_health, h]
    · intro d
      simp [PartyMember.recover_from_disease, h]
    · intro n
      induction n generalizing m with
      | zero => simpa using h
      | succ k ih =>
          rw [Function.iterate_succ_apply]
          exact ih _ (by simp [PartyMember.improve_health, h])
  · intro m
    refine ⟨?_, ?_, ?_, ?_⟩ <;> intro h <;> simp [PartyMember.improve_health, h]

/-- Witness for C4 at a concrete deceased member and a concrete member
at each lower rung. -/
theorem C4_deceased_absorbing_witness :
    (PartyMember.improve_health^[5]
      { name := "Ann", health := HealthStatus.Deceased, diseases := [],
        is_leader := false, age := 30 }).health = HealthStatus.Deceased ∧
    (PartyMember.improve_health
      { name := "Bo", health := HealthStatus.VeryPoor, diseases := [],
        is_leader := false, age := 25 }).health = HealthStatus.Poor :=
  ⟨(C4_deceased_absorbing.1
      { name := "Ann", health := HealthStatus.Deceased, diseases := [],
        is_leader := false, age := 30 } rfl).2.2.2.2 5,
   (C4_deceased_absorbing.2
      { name := "Bo", health := HealthStatus.VeryPoor, diseases := [],
        is_leader := false, age := 25 }).2.2.2 rfl⟩

/-- C6: contracting an already-active disease is a complete no-op;
contracting a new disease appends it once and degrades health exactly
one step; contract is idempotent; two contracts of the same disease on
a fresh member leave one disease entry and health Fair. -/
theorem C6_contract_idempotent :
    (∀ (m : PartyMember) (d : Disease), d ∈ m.diseases → m.contract_disease d = m) ∧
    (∀ (m : PartyMember) (d : Disease), d ∉ m.diseases →
      (m.contract_disease d).diseases = m.diseases ++ [d] ∧
      (m.contract_disease d).health = m.degrade_health.health) ∧
    (∀ (m : PartyMember) (d : Disease),
      (m.contract_disease d).contract_disease d = m.contract_disease d) ∧
    (∀ (name : String) (age : Nat) (lead : Bool) (d : Disease),
      ((PartyMember.new name age lead).contract_disease d).contract_disease d =
        { name := name, health := HealthStatus.Fair, diseases := [d],
          is_leader := lead, age := age }) := by
  have hmem : ∀ (m : PartyMember) (d : Disease), d ∉ m.diseases →
      m.contract_disease d =
        PartyMember.degrade_health { m with diseases := m.diseases ++ [d] } := by
    intro m d hd
    simp [PartyMember.contract_disease, hd]
  have hin : ∀ (m : PartyMember) (d : Disease), d ∈ m.diseases →
      m.contract_disease d = m := by
    intro m d hd
    simp [PartyMember.contract_disease, hd]
  refine ⟨hin, ?_, ?_, ?_⟩
  · intro m d hd
    rw [hmem m d hd]
    exact ⟨rfl, rfl⟩
  · intro m d
    by_cases hd : d ∈ m.diseases
    · rw [hin m d hd]
      exact hin m d hd
    · rw [hmem m d hd]
      exact hin _ d (by simp [PartyMember.degrade_health])
  · intro name age lead d
    have h1 : (PartyMember.new name age lead).contract_disease d =
        { name := name, health := HealthStatus.Fair, diseases := [d],
          is_leader := lead, age := age } := by
      rw [hmem _ d (by simp [PartyMember.new])]
      simp [PartyMember.new, PartyMember.degrade_health]
    rw [h1]
    exact hin _ d (by simp)

/-- Witness for C6 at a concrete member that already has cholera. -/
theorem C6_contract_idempotent_witness :
    PartyMember.contract_disease
      { name := "Ann", health := HealthStatus.Good,
        diseases := [Disease.Cholera], is_leader := false, age := 30 }
      Disease.Cholera =
    { name := "Ann", health := HealthStatus.Good,
      diseases := [Disease.Cholera], is_leader := false, age := 30 } :=
  C6_contract_idempotent.1
    { name := "Ann", health := HealthStatus.Good,
      diseases := [Disease.Cholera], is_leader := false, age := 30 }
    Disease.Cholera (by decide)

/-- C8: a freshly constructed journey state carries the stated
defaults with an empty roster; setup appends the leader record (age 30,
leader flag) then one companion record per name (age 25, no flag), all
created at health Good with no diseases; the Amanda/Bob/Cid roster has
three members, all counted living. -/
theorem C8_new_and_setup :
    PlayerState.new.money = 1600 ∧
    PlayerState.new.day = 1 ∧ PlayerState.new.month = 3 ∧
    PlayerState.new.year = 1848 ∧
    PlayerState.new.location = "Independence, Missouri" ∧
    PlayerState.new.pace = Pace.Steady ∧
    PlayerState.new.rations = Rations.Filling ∧
    PlayerState.new.party = [] ∧
    (∀ (s : PlayerState) (leader : String) (names : List String),
      (s.setup_party leader names).party =
        s.party ++ PartyMember.new leader 30 true ::
          names.map (fun n => PartyMember.new n 25 false)) ∧
    (∀ (name : String) (age : Nat) (lead : Bool),
      (PartyMember.new name age lead).health = HealthStatus.Good ∧
      (PartyMember.new name age lead).diseases = [] ∧
      (PartyMember.new name age lead).age = age ∧
      (PartyMember.new name age lead).is_leader = lead) ∧
    (PlayerState.new.setup_party "Amanda" ["Bob", "Cid"]).party.length = 3 ∧
    (PlayerState.new.setup_party "Amanda" ["Bob", "Cid"]).living_party_members = 3 := by
  refine ⟨rfl, rfl, rfl, rfl, rfl, rfl, rfl, rfl, ?_, ?_, rfl, rfl⟩
  · intro s leader names
    simp [PlayerState.setup_party]
  · intro name age lead
    exact ⟨rfl, rfl, rfl, rfl⟩

/-- C5: adding q units of a kind to an empty inventory and then
removing q units succeeds and restores the empty inventory exactly,
leaving no zero-quantity record. -/
theorem C5_add_then_remove :
    ∀ (cap : ℚ) (t : ItemType) (q : Nat),
      ((Inventory.new cap).add_item t q).map
        (fun inv => inv.remove_item t q) = some (true, Inventory.new cap) := by
  intro cap t q
  have hadd : (Inventory.new cap).add_item t q =
      some { items := fun u => if u = t then some (Inventory.defaultItem t q) else none
             max_capacity := cap } := by
    simp [Inventory.add_item, Inventory.new]
  rw [hadd]
  have hq : (Inventory.defaultItem t q).quantity = q := by
    cases t <;> rfl
  rw [Option.map_some']
  have hrem :
      Inventory.remove_item
        { items := fun u => if u = t then some (Inventory.defaultItem t q) else none
          max_capacity := cap } t q = (true, Inventory.new cap) := by
    simp only [Inventory.remove_item, if_pos rfl, hq, le_refl, if_true,
      Nat.sub_self]
    congr 1
    simp only [Inventory.new, Inventory.mk.injEq, and_true]
    funext u
    by_cases hu : u = t <;> simp [hu]
  rw [hrem]

/-- C2 as frozen is false: on an inventory that has never stocked food,
`remove(Food, 0)` returns false even though the requested quantity 0
does not exceed the held quantity 0. -/
theorem C2_counterexample :
    ¬ ((((Inventory.new 100).remove_item ItemType.Food 0).1 = false) ↔
        (Inventory.new 100).get_quantity ItemType.Food < 0) := by
  intro h
  exact absurd (h.mp rfl) (by simp)

/-- C2 amended: remove fails (false, state unchanged) iff the kind has
no record or the requested quantity exceeds the held quantity — in
particular removing 0 of an unstocked kind fails; on success it returns
true, decrements the held quantity by q, and deletes the record when
the remaining quantity is zero, so the kind afterwards reads as
quantity 0 exactly like a never-stocked kind. -/
theorem C2_remove_semantics :
    ∀ (inv : Inventory) (t : ItemType) (q : Nat),
      (inv.items t = none → inv.get_quantity t = 0 ∧
        inv.remove_item t q = (false, inv)) ∧
      (∀ it, inv.items t = some it →
        (it.quantity < q → inv.remove_item t q = (false, inv)) ∧
        (q ≤ it.quantity →
          (inv.remove_item t q).1 = true ∧
          (inv.remove_item t q).2.get_quantity t = it.quantity - q ∧
          (it.quantity = q → (inv.remove_item t q).2.items t = none))) := by
  intro inv t q
  constructor
  · intro h
    constructor
    · simp [Inventory.get_quantity, h]
    · simp [Inventory.remove_item, h]
  · intro it h
    constructor
    · intro hlt
      simp [Inventory.remove_item, h, Nat.not_le.mpr hlt]
    · intro hle
      by_cases hz : it.quantity - q = 0
      · refine ⟨?_, ?_, ?_⟩ <;>
          simp [Inventory.remove_item, h, hle, hz, Inventory.get_quantity]
      · refine ⟨?_, ?_, ?_⟩
        · simp [Inventory.remove_item, h, hle, hz]
        · simp [Inventory.remove_item, h, hle, hz, Inventory.get_quantity]
        · intro heq
          exact absurd (by simp [heq]) hz

/-- Witness for C2's amended statement: removing from an unstocked kind
fails unchanged, and removing part of a stocked kind decrements it. -/
theorem C2_remove_semantics_witness :
    (Inventory.new 100).remove_item ItemType.Food 3 = (false, Inventory.new 100) ∧
    (sampleFoodInv.remove_item ItemType.Food 2).2.get_quantity ItemType.Food = 3 :=
  ⟨((C2_remove_semantics (Inventory.new 100) ItemType.Food 3).1 rfl).2,
   (((C2_remove_semantics sampleFoodInv ItemType.Food 2).2
      (Item.new ItemType.Food 5 1 2) rfl).2 (by decide)).2.1⟩

/-- C7 as frozen ("for every inventory state and every kind and
quantity, add increments the stocked quantity") is false in a checked
build: after stocking 2^32 - 1 units of food, adding one more unit
overflows the `u32` quantity and panics instead of incrementing. -/
theorem C7_counterexample :
    ((Inventory.new 100).add_item ItemType.Food (2 ^ 32 - 1)).bind
      (fun inv => inv.add_item ItemType.Food 1) = none := by
  have hadd : (Inventory.new 100).add_item ItemType.Food (2 ^ 32 - 1) =
      some { items := fun u =>
               if u = ItemType.Food then
                 some (Inventory.defaultItem ItemType.Food (2 ^ 32 - 1))
               else none
             max_capacity := 100 } := by
    simp [Inventory.add_item, Inventory.new]
  rw [hadd, Option.some_bind]
  simp [Inventory.add_item, Inventory.defaultItem, Item.new]

/-- C7 amended: as long as the held quantity plus q stays below 2^32
(no `u32` overflow), `add` succeeds unconditionally — it consults no
capacity bound — incrementing the held quantity by q, creating the
record from the catalog defaults for a previously unstocked kind and
leaving every other kind and the capacity untouched; the items update
is independent of the capacity field, and adding one ox pair to an
empty 10-pound inventory yields a total weight strictly above
capacity. -/
theorem C7_add_ignores_capacity :
    (∀ (inv : Inventory) (t : ItemType) (q : Nat),
      inv.get_quantity t + q < 2 ^ 32 →
      ∃ inv2, inv.add_item t q = some inv2 ∧
        inv2.get_quantity t = inv.get_quantity t + q ∧
        inv2.max_capacity = inv.max_capacity ∧
        (∀ u, u ≠ t → inv2.items u = inv.items u) ∧
        (inv.items t = none → inv2.items t = some (Inventory.defaultItem t q))) ∧
    (∀ (inv : Inventory) (t : ItemType) (q : Nat) (c : ℚ),
      (Inventory.add_item { inv with max_capacity := c } t q).map Inventory.items =
        (inv.add_item t q).map Inventory.items) ∧
    (∃ inv2, (Inventory.new 10).add_item ItemType.OxenPair 1 = some inv2 ∧
      inv2.max_capacity < inv2.total_weight) := by
  refine ⟨?_, ?_, ?_⟩
  · intro inv t q hof
    match hit : inv.items t with
    | some it =>
        have hq : inv.get_quantity t = it.quantity := by
          simp [Inventory.get_quantity, hit]
        rw [hq] at hof
        refine ⟨{ inv with items := fun u =>
            (if u = t then some { it with quantity := it.quantity + q }
             else inv.items u) }, ?_, ?_, rfl, ?_, ?_⟩
        · simp [Inventory.add_item, hit]
          omega
        · simp [Inventory.get_quantity, hit]
        · intro u hu
          simp [hu]
        · intro hnone
          exact Option.noConfusion hnone
    | none =>
        refine ⟨{ inv with items := fun u =>
            (if u = t then some (Inventory.defaultItem t q)
             else inv.items u) }, ?_, ?_, rfl, ?_, ?_⟩
        · simp [Inventory.add_item, hit]
        · have hdq : (Inventory.defaultItem t q).quantity = q := by
            cases t <;> rfl
          simp [Inventory.get_quantity, hit, hdq]
        · intro u hu
          simp [hu]
        · intro _
          simp
  · intro inv t q c
    match hit : inv.items t with
    | some it =>
        by_cases hof : it.quantity + q < 2 ^ 32 <;>
          simp [Inventory.add_item, hit, hof]
    | none => simp [Inventory.add_item, hit]
  · refine ⟨Inventory.mk
      (fun u =>
        (if u = ItemType.OxenPair then some (Inventory.defaultItem ItemType.OxenPair 1)
         else none))
      10, ?_, ?_⟩
    · simp [Inventory.add_item, Inventory.new]
    · show (10 : ℚ) < Inventory.total_weight _
      simp [Inventory.total_weight, allItemTypes, Inventory.defaultItem,
        Item.new, Item.total_weight]
      norm_num

/-- Witness for C7's amended statement: adding five units of food to an
empty inventory stocks exactly five units. -/
theorem C7_add_ignores_capacity_witness :
    ∃ inv2, (Inventory.new 100).add_item ItemType.Food 5 = some inv2 ∧
      inv2.get_quantity ItemType.Food =
        (Inventory.new 100).get_quantity ItemType.Food + 5 ∧
      inv2.max_capacity = (Inventory.new 100).max_capacity ∧
      (∀ u, u ≠ ItemType.Food → inv2.items u = (Inventory.new 100).items u) ∧
      ((Inventory.new 100).items ItemType.Food = none →
        inv2.items ItemType.Food =
          some (Inventory.defaultItem ItemType.Food 5)) :=
  C7_add_ignores_capacity.1 (Inventory.new 100) ItemType.Food 5 (by decide)

/-- C3 is a defect the spec itself rules out: with the publicly
writable day field set to 32 (January has 31 days), `advance_date 1`
hits the `u32` underflow in `days_in_month - self.day` and panics in a
checked build (and loops forever under wrapping semantics); likewise
two `add` calls whose quantities sum past 2^32 - 1 overflow the `u32`
quantity and panic.  Both inputs are reachable through the public
contract, so the no-panic claim fails on the code. -/
theorem C3_reachable_panics :
    PlayerState.advance_date
      { PlayerState.new with day := 32, month := 1, year := 1848 } 1 = none ∧
    ((Inventory.new 100).add_item ItemType.Ammunition (2 ^ 32 - 1)).bind
      (fun inv => inv.add_item ItemType.Ammunition 1) = none := by
  constructor
  · exact advance_date_eval _ 1 none (by decide)
  · have hadd : (Inventory.new 100).add_item ItemType.Ammunition (2 ^ 32 - 1) =
        some { items := fun u =>
                 if u = ItemType.Ammunition then
                   some (Inventory.defaultItem ItemType.Ammunition (2 ^ 32 - 1))
                 else none
               max_capacity := 100 } := by
      simp [Inventory.add_item, Inventory.new]
    rw [hadd, Option.some_bind]
    simp [Inventory.add_item, Inventory.defaultItem, Item.new]

/-- C1: with the embedded month-length table (divisible-by-4 February
rule), advancing one day from Feb 28 1848 gives Feb 29 1848, from
Feb 29 1848 gives Mar 1 1848, and from Dec 31 1848 gives Jan 1 1849;
and a single multi-day `advance_date` call on any state equals the
iterative day-by-day computation over the same table. -/
theorem C1_advance_date_correct :
    PlayerState.advance_date { PlayerState.new with day := 28, month := 2, year := 1848 } 1 =
      some { PlayerState.new with day := 29, month := 2, year := 1848 } ∧
    PlayerState.advance_date { PlayerState.new with day := 29, month := 2, year := 1848 } 1 =
      some { PlayerState.new with day := 1, month := 3, year := 1848 } ∧
    PlayerState.advance_date { PlayerState.new with day := 31, month := 12, year := 1848 } 1 =
      some { PlayerState.new with day := 1, month := 1, year := 1849 } ∧
    (∀ (s : PlayerState) (n : Nat),
      PlayerState.advance_date s n = PlayerState.dayByDay s n) := by
  refine ⟨?_, ?_, ?_, fun s n => advance_eq_dayByDay n s⟩ <;>
    exact advance_date_eval _ 1 _ (by decide)

/-- C9: `advance_date` preserves date validity — whenever it returns a
state (no panic), a start with month in 1..12 and day within the
current month's table length yields a result with month in 1..12 and
day within the resulting month's table length. -/
theorem C9_advance_preserves_valid_dates :
    ∀ (s : PlayerState) (days : Nat) (t : PlayerState),
      validDate s → PlayerState.advance_date s days = some t → validDate t :=
  fun s days t hs h => advanceDateLoop_valid days s t hs h

/-- Witness for C9: advancing one day from the valid starting date
March 1 1848 yields the valid date March 2 1848. -/
theorem C9_advance_preserves_valid_dates_witness :
    validDate { PlayerState.new with day := 2 } :=
  C9_advance_preserves_valid_dates PlayerState.new 1 _
    (by unfold validDate; decide)
    (advance_date_eval PlayerState.new 1 (some { PlayerState.new with day := 2 }) (by decide))

/-- C10: the `advance_date` loop is well-founded on the remaining-days
counter — every iteration consumes at least one remaining day, so a
fuel of `days + 1` loop entries always suffices and the embedded
function is total for every days argument. -/
theorem C10_advance_date_terminates :
    ∀ (s : PlayerState) (days : Nat),
      PlayerState.advanceDateFuel (days + 1) s days =
        some (PlayerState.advance_date s days) :=
  fun s days => advanceDateFuel_spec (days + 1) s days (Nat.lt_succ_self days)
